import Mathlib

/-!
Verification development for the exotica dynamics-solver core: a shallow
embedding of the analytic single-pole-on-cart solver
(`cartpole_dynamics_solver.cpp`) and of the generic articulated-body solver
(`pinocchio_dynamics_solver.cpp`), with theorems settling the specified
properties of `f`, `fx`, `fu`, `StateDelta`, `dStateDelta`, `Integrate`,
`AssignScene` and the solver-owned scratch buffers.

Machine doubles are modelled as real numbers; the external engine
(forward dynamics, derivative routine, manifold difference/integrate) is
modelled as an abstract record of functions, since it is not part of this
repository.
-/

/-- The two error kinds of the error-handling design: scene/model
incompatibility and vector-size (or argument-selector) mismatch. -/
inductive DynError where
  | ConfigurationError : DynError
  | DimensionError : DynError
deriving DecidableEq, Repr

/-- Declared base topology reported by the kinematic tree
(`BaseType::FIXED / PLANAR / FLOATING`). -/
inductive BaseType where
  | FIXED : BaseType
  | PLANAR : BaseType
  | FLOATING : BaseType
deriving DecidableEq, Repr

/-- Argument-position selector (`ArgumentPosition::ARG0 ... ARG4`). -/
inductive ArgumentPosition where
  | ARG0 : ArgumentPosition
  | ARG1 : ArgumentPosition
  | ARG2 : ArgumentPosition
  | ARG3 : ArgumentPosition
  | ARG4 : ArgumentPosition
deriving DecidableEq, Repr

namespace Cartpole

/-- Model constants of the cartpole solver: cart mass `m_c`, pole mass
`m_p`, pole length `l`, gravity `g` (bound once, never mutated). -/
structure Params where
  m_c : ℝ
  m_p : ℝ
  l : ℝ
  g : ℝ

/-- Dimension fields set by `CartpoleDynamicsSolver::CartpoleDynamicsSolver`. -/
structure SolverState where
  num_positions : ℕ
  num_velocities : ℕ
  num_controls : ℕ
deriving DecidableEq, Repr

/-- `CartpoleDynamicsSolver::CartpoleDynamicsSolver()`:
`num_positions_ = 2; num_velocities_ = 2; num_controls_ = 1;`. -/
def ctor : SolverState := { num_positions := 2, num_velocities := 2, num_controls := 1 }

/-- `CartpoleDynamicsSolver::AssignScene`: throws iff the kinematic tree
reports a controlled-joint count different from 2; otherwise it touches
nothing ("Robot model may not be a Cartpole."). -/
def AssignScene (s : SolverState) (num_controlled_joints : ℕ) : Except DynError SolverState :=
  if num_controlled_joints ≠ 2 then .error .ConfigurationError else .ok s

/-- Cart acceleration of `CartpoleDynamicsSolver::f` (third entry of `x_dot`):
`(u(0) + m_p * sin_theta * (l * theta_dot_squared + g * cos_theta)) /
 (m_c + m_p * sin_theta * sin_theta)`. -/
noncomputable def xddot (p : Params) (theta thetadot u0 : ℝ) : ℝ :=
  (u0 + p.m_p * Real.sin theta * (p.l * (thetadot * thetadot) + p.g * Real.cos theta)) /
    (p.m_c + p.m_p * Real.sin theta * Real.sin theta)

/-- Pole angular acceleration of `CartpoleDynamicsSolver::f` (fourth entry):
`-(l * m_p * cos_theta * sin_theta * theta_dot_squared + u(0) * cos_theta +
   (m_c + m_p) * g * sin_theta) / (l * m_c + l * m_p * sin_theta * sin_theta)`. -/
noncomputable def tddot (p : Params) (theta thetadot u0 : ℝ) : ℝ :=
  -(p.l * p.m_p * Real.cos theta * Real.sin theta * (thetadot * thetadot) +
      u0 * Real.cos theta + (p.m_c + p.m_p) * p.g * Real.sin theta) /
    (p.l * p.m_c + p.l * p.m_p * Real.sin theta * Real.sin theta)

/-- `CartpoleDynamicsSolver::f`: `x_dot << xdot, thetadot, xddot, tddot`
with `theta = x(1)`, `xdot = x(2)`, `thetadot = x(3)`. -/
noncomputable def f (p : Params) (x : Fin 4 → ℝ) (u : Fin 1 → ℝ) : Fin 4 → ℝ := fun i =>
  match i with
  | 0 => x 2
  | 1 => x 3
  | 2 => xddot p (x 1) (x 3) (u 0)
  | 3 => tddot p (x 1) (x 3) (u 0)

/-- Entry (2,1) of `CartpoleDynamicsSolver::fx`. -/
noncomputable def fx21 (p : Params) (theta tdot u0 : ℝ) : ℝ :=
  (-2) * p.m_p * (p.m_p * (p.g * Real.cos theta + p.l * (tdot * tdot)) * Real.sin theta + u0) *
      Real.sin theta * Real.cos theta /
      (p.m_c + p.m_p * Real.sin theta * Real.sin theta) ^ 2 +
    ((-p.g) * p.m_p * Real.sin theta * Real.sin theta +
        p.m_p * (p.g * Real.cos theta + p.l * (tdot * tdot)) * Real.cos theta) /
      (p.m_c + p.m_p * Real.sin theta * Real.sin theta)

/-- Entry (2,3) of `CartpoleDynamicsSolver::fx`. -/
noncomputable def fx23 (p : Params) (theta tdot u0 : ℝ) : ℝ :=
  2 * p.l * p.m_p * tdot * Real.sin theta /
    (p.m_c + p.m_p * Real.sin theta * Real.sin theta)

/-- Entry (3,1) of `CartpoleDynamicsSolver::fx`. -/
noncomputable def fx31 (p : Params) (theta tdot u0 : ℝ) : ℝ :=
  (-2) * p.l * p.m_p *
      ((-p.g) * (p.m_c + p.m_p) * Real.sin theta -
        p.l * p.m_p * (tdot * tdot) * Real.sin theta * Real.cos theta - u0 * Real.cos theta) *
      Real.sin theta * Real.cos theta /
      (p.l * p.m_c + p.l * p.m_p * Real.sin theta * Real.sin theta) ^ 2 +
    ((-p.g) * (p.m_c + p.m_p) * Real.cos theta +
        p.l * p.m_p * (tdot * tdot) * Real.sin theta * Real.sin theta -
        p.l * p.m_p * (tdot * tdot) * Real.cos theta * Real.cos theta + u0 * Real.sin theta) /
      (p.l * p.m_c + p.l * p.m_p * Real.sin theta * Real.sin theta)

/-- Entry (3,3) of `CartpoleDynamicsSolver::fx`. -/
noncomputable def fx33 (p : Params) (theta tdot u0 : ℝ) : ℝ :=
  (-2) * p.l * p.m_p * tdot * Real.sin theta * Real.cos theta /
    (p.l * p.m_c + p.l * p.m_p * Real.sin theta * Real.sin theta)

/-- `CartpoleDynamicsSolver::fx`: the 4x4 state Jacobian, rows
`(0,0,1,0)`, `(0,0,0,1)`, `(0, fx21, 0, fx23)`, `(0, fx31, 0, fx33)`. -/
noncomputable def fx (p : Params) (x : Fin 4 → ℝ) (u : Fin 1 → ℝ) : Fin 4 → Fin 4 → ℝ :=
  fun i j =>
  match i, j with
  | 0, 0 => 0 | 0, 1 => 0 | 0, 2 => 1 | 0, 3 => 0
  | 1, 0 => 0 | 1, 1 => 0 | 1, 2 => 0 | 1, 3 => 1
  | 2, 0 => 0 | 2, 1 => fx21 p (x 1) (x 3) (u 0)
  | 2, 2 => 0 | 2, 3 => fx23 p (x 1) (x 3) (u 0)
  | 3, 0 => 0 | 3, 1 => fx31 p (x 1) (x 3) (u 0)
  | 3, 2 => 0 | 3, 3 => fx33 p (x 1) (x 3) (u 0)

/-- `CartpoleDynamicsSolver::fu`: the 4x1 control Jacobian
`(0, 0, 1/(m_c + m_p sin^2), -cos/(l m_c + l m_p sin^2))`. -/
noncomputable def fu (p : Params) (x : Fin 4 → ℝ) (u : Fin 1 → ℝ) : Fin 4 → ℝ := fun i =>
  match i with
  | 0 => 0
  | 1 => 0
  | 2 => 1 / (p.m_c + p.m_p * Real.sin (x 1) * Real.sin (x 1))
  | 3 => -Real.cos (x 1) / (p.l * p.m_c + p.l * p.m_p * Real.sin (x 1) * Real.sin (x 1))

/-- `CartpoleDynamicsSolver::GetPosition`: `(x_in(0), pi - x_in(1))`. -/
noncomputable def GetPosition (x : Fin 4 → ℝ) : Fin 2 → ℝ := fun i =>
  match i with
  | 0 => x 0
  | 1 => Real.pi - x 1

/-- `CartpoleDynamicsSolver::StateDelta`: plain subtraction `x_1 - x_2`
(the angle-wrapping line is commented out in the source). -/
noncomputable def StateDelta (x_1 x_2 : Fin 4 → ℝ) : Fin 4 → ℝ := fun i => x_1 i - x_2 i

/-- Modelled from the spec: the cartpole solver inherits the contract's
default Euclidean `Integrate` (the base-class code is not under `src/`);
the configuration and velocity blocks advance by plain addition of the
scaled tangent increment. -/
noncomputable def Integrate (x dx : Fin 4 → ℝ) (dt : ℝ) : Fin 4 → ℝ := fun i => x i + dt * dx i

end Cartpole

/-- Modelled from the spec: the shared dynamics-solver contract's entry-point
validation (the base-class code enforcing it is not under `src/`): every
`f`/`fx`/`fu` call requires `x.size() == num_positions + num_velocities` and
`u.size() == num_controls`, else the call fails with a `DimensionError`;
otherwise the solver body runs on the validated vectors. -/
def checkedCall {α : Type} (np nv nc : ℕ) (x u : List ℝ)
    (body : List ℝ → List ℝ → α) : Except DynError α :=
  if x.length ≠ np + nv ∨ u.length ≠ nc then .error .DimensionError else .ok (body x u)

/-- The cartpole `f` behind the contract's size validation. -/
noncomputable def cartpoleFChecked (p : Cartpole.Params) (x u : List ℝ) :
    Except DynError (Fin 4 → ℝ) :=
  checkedCall 2 2 1 x u fun x u =>
    Cartpole.f p (fun i => x.getD i.val 0) (fun i => u.getD i.val 0)

/-- The cartpole `fx` behind the contract's size validation. -/
noncomputable def cartpoleFxChecked (p : Cartpole.Params) (x u : List ℝ) :
    Except DynError (Fin 4 → Fin 4 → ℝ) :=
  checkedCall 2 2 1 x u fun x u =>
    Cartpole.fx p (fun i => x.getD i.val 0) (fun i => u.getD i.val 0)

/-- The cartpole `fu` behind the contract's size validation. -/
noncomputable def cartpoleFuChecked (p : Cartpole.Params) (x u : List ℝ) :
    Except DynError (Fin 4 → ℝ) :=
  checkedCall 2 2 1 x u fun x u =>
    Cartpole.fu p (fun i => x.getD i.val 0) (fun i => u.getD i.val 0)

namespace Pinocchio

/-- The external engine bound by `PinocchioDynamicsSolver::AssignScene`,
modelled as an abstract record: configuration dimension `nq`, velocity
dimension `nv`, the forward-dynamics routine `aba` (returns the
acceleration `ddq`), the combined derivative routine `abaDerivatives`
(returns `ddq_dq`, `ddq_dv`, `ddq_dtau`), and the configuration-manifold
operators `difference` / `dDifference` / `integrate`. -/
structure Model where
  nq : ℕ
  nv : ℕ
  aba : (Fin nq → ℝ) → (Fin nv → ℝ) → (Fin nv → ℝ) → (Fin nv → ℝ)
  abaDerivatives : (Fin nq → ℝ) → (Fin nv → ℝ) → (Fin nv → ℝ) →
    (Fin nv → Fin nv → ℝ) × (Fin nv → Fin nv → ℝ) × (Fin nv → Fin nv → ℝ)
  difference : (Fin nq → ℝ) → (Fin nq → ℝ) → (Fin nv → ℝ)
  dDifference : (Fin nq → ℝ) → (Fin nq → ℝ) → ArgumentPosition → (Fin nv → Fin nv → ℝ)
  integrate : (Fin nq → ℝ) → (Fin nv → ℝ) → (Fin nq → ℝ)

/-- A state vector `[q; v]`: `Sum.inl` indexes the configuration head
(`x.head(num_positions_)`), `Sum.inr` the velocity tail. -/
def X (m : Model) : Type := Fin m.nq ⊕ Fin m.nv → ℝ

/-- A tangent/state-derivative vector of dimension `ndx = 2 * nv`:
`Sum.inl` indexes the first `nv` entries, `Sum.inr` the last `nv`. -/
def DX (m : Model) : Type := Fin m.nv ⊕ Fin m.nv → ℝ

/-- `x.head(num_positions_)`. -/
def confOf (m : Model) (x : X m) : Fin m.nq → ℝ := fun i => x (Sum.inl i)

/-- `x.tail(num_velocities_)`. -/
def velOf (m : Model) (x : X m) : Fin m.nv → ℝ := fun i => x (Sum.inr i)

/-- The solver-owned fields of `PinocchioDynamicsSolver`: the three
dimension fields and the pre-allocated scratch buffers `xdot_analytic_`,
`fx_`, `fu_` reused across calls. -/
structure State (m : Model) where
  num_positions : ℕ
  num_velocities : ℕ
  num_controls : ℕ
  xdot_analytic_ : Fin m.nv ⊕ Fin m.nv → ℝ
  fx_ : Fin m.nv ⊕ Fin m.nv → Fin m.nv ⊕ Fin m.nv → ℝ
  fu_ : Fin m.nv ⊕ Fin m.nv → Fin m.nv → ℝ

/-- The `fx_` buffer right after `AssignScene`: `fx_.setZero(ndx, ndx);
fx_.topRightCorner(nv, nv).setIdentity();`. -/
def initFx (m : Model) : Fin m.nv ⊕ Fin m.nv → Fin m.nv ⊕ Fin m.nv → ℝ := fun i j =>
  match i, j with
  | Sum.inl a, Sum.inr b => if a = b then 1 else 0
  | _, _ => 0

/-- The solver state produced by a successful `AssignScene`:
`num_positions_ = nq`, `num_velocities_ = num_controls_ = nv`, and
zero-initialized buffers with the top-right identity block of `fx_`. -/
def initState (m : Model) : State m where
  num_positions := m.nq
  num_velocities := m.nv
  num_controls := m.nv
  xdot_analytic_ := fun _ => 0
  fx_ := initFx m
  fu_ := fun _ _ => 0

/-- `PinocchioDynamicsSolver::AssignScene`: builds the engine model only
for `BaseType::FIXED` (the planar/floating branches are commented out in
the source); any other declared base topology throws before the dimension
fields or buffers are set. -/
def AssignScene (m : Model) (base : BaseType) : Except DynError (State m) :=
  match base with
  | .FIXED => .ok (initState m)
  | _ => .error .ConfigurationError

/-- `PinocchioDynamicsSolver::f`: runs the engine's forward dynamics and
overwrites the `xdot_analytic_` buffer with `[v; ddq]`. -/
noncomputable def fStep (m : Model) (s : State m) (x : X m) (u : Fin m.nv → ℝ) : State m :=
  { s with xdot_analytic_ := Sum.elim (velOf m x) (m.aba (confOf m x) (velOf m x) u) }

/-- The vector returned by `PinocchioDynamicsSolver::f` (a view of the
`xdot_analytic_` buffer after the call). -/
noncomputable def fReturn (m : Model) (s : State m) (x : X m) (u : Fin m.nv → ℝ) : DX m :=
  (fStep m s x u).xdot_analytic_

/-- `PinocchioDynamicsSolver::ComputeDerivatives` (also inlined in `fx`
and `fu`): one `computeABADerivatives` call writing `ddq_dq` into the
bottom-left block of `fx_`, `ddq_dv` into its bottom-right block, and
`ddq_dtau` into the bottom block of `fu_`; the top (`Sum.inl`) rows of
both buffers are left untouched. -/
noncomputable def ComputeDerivatives (m : Model) (s : State m) (x : X m)
    (u : Fin m.nv → ℝ) : State m :=
  let d := m.abaDerivatives (confOf m x) (velOf m x) u
  { s with
    fx_ := fun i j =>
      match i with
      | Sum.inl a => s.fx_ (Sum.inl a) j
      | Sum.inr a =>
        match j with
        | Sum.inl b => d.1 a b
        | Sum.inr b => d.2.1 a b
    fu_ := fun i j =>
      match i with
      | Sum.inl a => s.fu_ (Sum.inl a) j
      | Sum.inr a => d.2.2 a j }

/-- The matrix returned by `PinocchioDynamicsSolver::fx` (a view of the
`fx_` buffer after the call). -/
noncomputable def fxReturn (m : Model) (s : State m) (x : X m) (u : Fin m.nv → ℝ) :
    Fin m.nv ⊕ Fin m.nv → Fin m.nv ⊕ Fin m.nv → ℝ :=
  (ComputeDerivatives m s x u).fx_

/-- The matrix returned by `PinocchioDynamicsSolver::fu` (a view of the
`fu_` buffer after the call). -/
noncomputable def fuReturn (m : Model) (s : State m) (x : X m) (u : Fin m.nv → ℝ) :
    Fin m.nv ⊕ Fin m.nv → Fin m.nv → ℝ :=
  (ComputeDerivatives m s x u).fu_

/-- One call on a bound solver instance. -/
inductive Call (m : Model) where
  | callF (x : X m) (u : Fin m.nv → ℝ) : Call m
  | callFx (x : X m) (u : Fin m.nv → ℝ) : Call m
  | callFu (x : X m) (u : Fin m.nv → ℝ) : Call m

/-- The buffer side effect of one `f`/`fx`/`fu` call. -/
noncomputable def step (m : Model) (s : State m) : Call m → State m
  | .callF x u => fStep m s x u
  | .callFx x u => ComputeDerivatives m s x u
  | .callFu x u => ComputeDerivatives m s x u

/-- The solver state after a sequence of `f`/`fx`/`fu` calls. -/
noncomputable def run (m : Model) (s : State m) : List (Call m) → State m
  | [] => s
  | c :: cs => run m (step m s c) cs

/-- `PinocchioDynamicsSolver::StateDelta` on correctly sized states:
configuration block `pinocchio::difference(model_, x_2.head, x_1.head)`,
velocity block `x_1.tail - x_2.tail`. -/
noncomputable def StateDelta (m : Model) (x_1 x_2 : X m) : DX m :=
  Sum.elim (m.difference (confOf m x_2) (confOf m x_1))
    (fun i => x_1 (Sum.inr i) - x_2 (Sum.inr i))

/-- The Jacobian built by `PinocchioDynamicsSolver::dStateDelta` for
`ARG0`: identity with the top-left block overwritten by
`pinocchio::dDifference(model_, x_2.head, x_1.head, ..., ARG1)`. -/
noncomputable def dStateDeltaArg0 (m : Model) (x_1 x_2 : X m) :
    Fin m.nv ⊕ Fin m.nv → Fin m.nv ⊕ Fin m.nv → ℝ := fun i j =>
  match i, j with
  | Sum.inl a, Sum.inl b => m.dDifference (confOf m x_2) (confOf m x_1) .ARG1 a b
  | Sum.inr a, Sum.inr b => if a = b then 1 else 0
  | _, _ => 0

/-- The Jacobian built by `PinocchioDynamicsSolver::dStateDelta` for
`ARG1`: identity with the top-left block overwritten by
`pinocchio::dDifference(model_, x_2.head, x_1.head, ..., ARG0)` and the
bottom-right block multiplied by `-1.0`. -/
noncomputable def dStateDeltaArg1 (m : Model) (x_1 x_2 : X m) :
    Fin m.nv ⊕ Fin m.nv → Fin m.nv ⊕ Fin m.nv → ℝ := fun i j =>
  match i, j with
  | Sum.inl a, Sum.inl b => m.dDifference (confOf m x_2) (confOf m x_1) .ARG0 a b
  | Sum.inr a, Sum.inr b => if a = b then -1 else 0
  | _, _ => 0

/-- `PinocchioDynamicsSolver::dStateDelta` on correctly sized states:
throws unless the selector is `ARG0` or `ARG1`. -/
noncomputable def dStateDelta (m : Model) (x_1 x_2 : X m)
    (first_or_second : ArgumentPosition) :
    Except DynError (Fin m.nv ⊕ Fin m.nv → Fin m.nv ⊕ Fin m.nv → ℝ) :=
  match first_or_second with
  | .ARG0 => .ok (dStateDeltaArg0 m x_1 x_2)
  | .ARG1 => .ok (dStateDeltaArg1 m x_1 x_2)
  | _ => .error .DimensionError

/-- `PinocchioDynamicsSolver::Integrate`: configuration block
`pinocchio::integrate(model_, x.head, (dt * dx).head)`, velocity block
`x.tail + (dt * dx).tail`. -/
noncomputable def Integrate (m : Model) (x : X m) (dx : DX m) (dt : ℝ) : X m :=
  Sum.elim (m.integrate (confOf m x) (fun i => dt * dx (Sum.inl i)))
    (fun i => x (Sum.inr i) + dt * dx (Sum.inr i))

/-- The pinocchio `f` behind the contract's size validation (modelled from
the spec, see `checkedCall`). -/
noncomputable def fChecked (m : Model) (s : State m) (x u : List ℝ) :
    Except DynError (DX m) :=
  checkedCall m.nq m.nv m.nv x u fun x u =>
    fReturn m s
      (fun i => match i with
        | Sum.inl a => x.getD a.val 0
        | Sum.inr b => x.getD (m.nq + b.val) 0)
      (fun i => u.getD i.val 0)

/-- The pinocchio `fx` behind the contract's size validation. -/
noncomputable def fxChecked (m : Model) (s : State m) (x u : List ℝ) :
    Except DynError (Fin m.nv ⊕ Fin m.nv → Fin m.nv ⊕ Fin m.nv → ℝ) :=
  checkedCall m.nq m.nv m.nv x u fun x u =>
    fxReturn m s
      (fun i => match i with
        | Sum.inl a => x.getD a.val 0
        | Sum.inr b => x.getD (m.nq + b.val) 0)
      (fun i => u.getD i.val 0)

/-- The pinocchio `fu` behind the contract's size validation. -/
noncomputable def fuChecked (m : Model) (s : State m) (x u : List ℝ) :
    Except DynError (Fin m.nv ⊕ Fin m.nv → Fin m.nv → ℝ) :=
  checkedCall m.nq m.nv m.nv x u fun x u =>
    fuReturn m s
      (fun i => match i with
        | Sum.inl a => x.getD a.val 0
        | Sum.inr b => x.getD (m.nq + b.val) 0)
      (fun i => u.getD i.val 0)

end Pinocchio

/-- A one-dimensional Euclidean instance of the engine record (`nq = nv =
1`, `difference` is subtraction, `integrate` is addition), used to
evaluate the pinocchio solver's manifold operations on concrete inputs. -/
noncomputable def euclModel : Pinocchio.Model where
  nq := 1
  nv := 1
  aba := fun _ _ u => u
  abaDerivatives := fun _ _ _ => (fun _ _ => 0, fun _ _ => 0, fun _ _ => 1)
  difference := fun q0 q1 i => q1 i - q0 i
  dDifference := fun _ _ pos i j =>
    match pos with
    | .ARG0 => if i = j then -1 else 0
    | .ARG1 => if i = j then 1 else 0
    | _ => 0
  integrate := fun q v i => q i + v i

/-- Concrete state `x1 = [0; 0]` for the one-dimensional Euclidean instance. -/
noncomputable def x1c : Pinocchio.X euclModel := fun _ => 0

/-- Concrete state `x2 = [1; 1]` for the one-dimensional Euclidean instance. -/
noncomputable def x2c : Pinocchio.X euclModel := fun _ => 1

/-- C6: with `m_c=1, m_p=0.1, l=0.5, g=9.81`, state `x=[0, pi, 0, 0]` and
control `u=[0]`, the cartpole `f(x,u)` is exactly the zero vector over
real arithmetic. -/
theorem cartpole_upright_equilibrium :
    Cartpole.f ⟨1, 0.1, 0.5, 9.81⟩ ![0, Real.pi, 0, 0] ![0] = ![0, 0, 0, 0] := by
  funext i
  fin_cases i <;>
    simp [Cartpole.f, Cartpole.xddot, Cartpole.tddot, Real.sin_pi, Real.cos_pi]

/-- C7: `CartpoleDynamicsSolver::AssignScene` fails with a
`ConfigurationError` iff the kinematic description reports a
controlled-degree-of-freedom count different from 2; on success it leaves
the constructor-set dimensions `num_positions=2, num_velocities=2,
num_controls=1` in place. -/
theorem cartpole_assign_scene_spec (n : ℕ) :
    (Cartpole.AssignScene Cartpole.ctor n = .error .ConfigurationError ↔ n ≠ 2) ∧
      Cartpole.AssignScene Cartpole.ctor 2 = .ok Cartpole.ctor ∧
      Cartpole.ctor.num_positions = 2 ∧ Cartpole.ctor.num_velocities = 2 ∧
      Cartpole.ctor.num_controls = 1 := by
  refine ⟨⟨fun h => ?_, fun h => ?_⟩, rfl, rfl, rfl, rfl⟩
  · intro hn
    rw [Cartpole.AssignScene, if_neg (by simpa using hn)] at h
    exact Except.noConfusion h
  · rw [Cartpole.AssignScene, if_pos h]

/-- C9: the cartpole dynamics are invariant under translation of the cart
position: shifting `x` by `d` along the first basis vector leaves `f`,
`fx` and `fu` unchanged, and the first column of `fx` is identically zero. -/
theorem cartpole_translation_invariance (p : Cartpole.Params) (x : Fin 4 → ℝ)
    (u : Fin 1 → ℝ) (d : ℝ) :
    Cartpole.f p (x + Pi.single 0 d) u = Cartpole.f p x u ∧
      Cartpole.fx p (x + Pi.single 0 d) u = Cartpole.fx p x u ∧
      Cartpole.fu p (x + Pi.single 0 d) u = Cartpole.fu p x u ∧
      ∀ i : Fin 4, Cartpole.fx p x u i 0 = 0 := by
  have h1 : (x + Pi.single 0 d : Fin 4 → ℝ) 1 = x 1 := by
    simp [Pi.single_apply]
  have h2 : (x + Pi.single 0 d : Fin 4 → ℝ) 2 = x 2 := by
    simp [Pi.single_apply]
  have h3 : (x + Pi.single 0 d : Fin 4 → ℝ) 3 = x 3 := by
    simp [Pi.single_apply]
  refine ⟨?_, ?_, ?_, ?_⟩
  · funext i
    fin_cases i <;> simp [Cartpole.f, h1, h2, h3]
  · funext i j
    fin_cases i <;> fin_cases j <;> simp [Cartpole.fx, h1, h2, h3]
  · funext i
    fin_cases i <;> simp [Cartpole.fu, h1, h2, h3]
  · intro i
    fin_cases i <;> rfl

/-- C8: `PinocchioDynamicsSolver::AssignScene` builds the engine model
only for a fixed declared base topology; every non-fixed base topology
fails with a `ConfigurationError` before the dimension fields or buffers
are set, and on success the dimensions are `nq`, `nv`, `nv`. -/
theorem pinocchio_assign_scene_spec (m : Pinocchio.Model) (base : BaseType) :
    (Pinocchio.AssignScene m base = .error .ConfigurationError ↔ base ≠ .FIXED) ∧
      Pinocchio.AssignScene m .FIXED = .ok (Pinocchio.initState m) ∧
      (Pinocchio.initState m).num_positions = m.nq ∧
      (Pinocchio.initState m).num_velocities = m.nv ∧
      (Pinocchio.initState m).num_controls = m.nv := by
  refine ⟨⟨fun h hbase => ?_, fun h => ?_⟩, rfl, rfl, rfl, rfl⟩
  · subst hbase
    exact Except.noConfusion h
  · cases base with
    | FIXED => exact absurd rfl h
    | PLANAR => rfl
    | FLOATING => rfl

/-- Any single `f`/`fx`/`fu` call leaves the top (`Sum.inl`) rows of the
`fx_` buffer untouched. -/
theorem step_fx_inl (m : Pinocchio.Model) (s : Pinocchio.State m) (c : Pinocchio.Call m)
    (a : Fin m.nv) (j : Fin m.nv ⊕ Fin m.nv) :
    (Pinocchio.step m s c).fx_ (Sum.inl a) j = s.fx_ (Sum.inl a) j := by
  cases c <;> rfl

/-- Any single `f`/`fx`/`fu` call leaves the top (`Sum.inl`) rows of the
`fu_` buffer untouched. -/
theorem step_fu_inl (m : Pinocchio.Model) (s : Pinocchio.State m) (c : Pinocchio.Call m)
    (a : Fin m.nv) (j : Fin m.nv) :
    (Pinocchio.step m s c).fu_ (Sum.inl a) j = s.fu_ (Sum.inl a) j := by
  cases c <;> rfl

/-- Any sequence of `f`/`fx`/`fu` calls leaves the top rows of `fx_`
untouched. -/
theorem run_fx_inl (m : Pinocchio.Model) (cs : List (Pinocchio.Call m))
    (s : Pinocchio.State m) (a : Fin m.nv) (j : Fin m.nv ⊕ Fin m.nv) :
    (Pinocchio.run m s cs).fx_ (Sum.inl a) j = s.fx_ (Sum.inl a) j := by
  induction cs generalizing s with
  | nil => rfl
  | cons c cs ih => rw [Pinocchio.run, ih, step_fx_inl]

/-- Any sequence of `f`/`fx`/`fu` calls leaves the top rows of `fu_`
untouched. -/
theorem run_fu_inl (m : Pinocchio.Model) (cs : List (Pinocchio.Call m))
    (s : Pinocchio.State m) (a : Fin m.nv) (j : Fin m.nv) :
    (Pinocchio.run m s cs).fu_ (Sum.inl a) j = s.fu_ (Sum.inl a) j := by
  induction cs generalizing s with
  | nil => rfl
  | cons c cs ih => rw [Pinocchio.run, ih, step_fu_inl]

/-- C4: immediately after a successful `AssignScene` the `fx_` buffer has
its top-right `nv x nv` block equal to the identity and every other entry
zero, and after any sequence of `f`/`fx`/`fu` calls the top-right block
still equals the identity. -/
theorem pinocchio_fx_identity_block_invariant (m : Pinocchio.Model) :
    Pinocchio.AssignScene m .FIXED = .ok (Pinocchio.initState m) ∧
      (∀ i j : Fin m.nv, (Pinocchio.initState m).fx_ (Sum.inl i) (Sum.inr j) =
        if i = j then 1 else 0) ∧
      (∀ i : Fin m.nv, ∀ j : Fin m.nv ⊕ Fin m.nv,
        (Pinocchio.initState m).fx_ (Sum.inr i) j = 0) ∧
      (∀ i j : Fin m.nv, (Pinocchio.initState m).fx_ (Sum.inl i) (Sum.inl j) = 0) ∧
      ∀ cs : List (Pinocchio.Call m), ∀ i j : Fin m.nv,
        (Pinocchio.run m (Pinocchio.initState m) cs).fx_ (Sum.inl i) (Sum.inr j) =
          if i = j then 1 else 0 := by
  refine ⟨rfl, fun i j => rfl, fun i j => ?_, fun i j => rfl, fun cs i j => ?_⟩
  · cases j <;> rfl
  · rw [run_fx_inl]
    rfl

/-- C10: the values returned by `f`, `fx` and `fu` on a bound pinocchio
solver depend only on the call's own arguments `(x, u)` and the bound
model, not on which `f`/`fx`/`fu` calls (with whatever arguments) were
made before on the same instance. -/
theorem pinocchio_call_history_insensitive (m : Pinocchio.Model)
    (cs1 cs2 : List (Pinocchio.Call m)) (x : Pinocchio.X m) (u : Fin m.nv → ℝ) :
    Pinocchio.fReturn m (Pinocchio.run m (Pinocchio.initState m) cs1) x u =
        Pinocchio.fReturn m (Pinocchio.run m (Pinocchio.initState m) cs2) x u ∧
      Pinocchio.fxReturn m (Pinocchio.run m (Pinocchio.initState m) cs1) x u =
        Pinocchio.fxReturn m (Pinocchio.run m (Pinocchio.initState m) cs2) x u ∧
      Pinocchio.fuReturn m (Pinocchio.run m (Pinocchio.initState m) cs1) x u =
        Pinocchio.fuReturn m (Pinocchio.run m (Pinocchio.initState m) cs2) x u := by
  refine ⟨rfl, ?_, ?_⟩
  · funext i j
    cases i with
    | inl a =>
      show (Pinocchio.run m (Pinocchio.initState m) cs1).fx_ (Sum.inl a) j =
        (Pinocchio.run m (Pinocchio.initState m) cs2).fx_ (Sum.inl a) j
      rw [run_fx_inl, run_fx_inl]
    | inr a => cases j <;> rfl
  · funext i j
    cases i with
    | inl a =>
      show (Pinocchio.run m (Pinocchio.initState m) cs1).fu_ (Sum.inl a) j =
        (Pinocchio.run m (Pinocchio.initState m) cs2).fu_ (Sum.inl a) j
      rw [run_fu_inl, run_fu_inl]
    | inr a => rfl

/-- C5: block structure of `dStateDelta` — the bottom-right (velocity)
block for `ARG1` is minus the bottom-right block for `ARG0` (which is the
identity), and the top-left (configuration) block is the manifold
difference Jacobian taken in the corresponding argument slot, with the
argument order flipped when differentiating with respect to the second
state. -/
theorem pinocchio_dStateDelta_block_structure (m : Pinocchio.Model)
    (x_1 x_2 : Pinocchio.X m)
    (J0 J1 : Fin m.nv ⊕ Fin m.nv → Fin m.nv ⊕ Fin m.nv → ℝ)
    (h0 : Pinocchio.dStateDelta m x_1 x_2 .ARG0 = .ok J0)
    (h1 : Pinocchio.dStateDelta m x_1 x_2 .ARG1 = .ok J1) (i j : Fin m.nv) :
    J1 (Sum.inr i) (Sum.inr j) = -J0 (Sum.inr i) (Sum.inr j) ∧
      J0 (Sum.inr i) (Sum.inr j) = (if i = j then 1 else 0) ∧
      J0 (Sum.inl i) (Sum.inl j) =
        m.dDifference (Pinocchio.confOf m x_2) (Pinocchio.confOf m x_1) .ARG1 i j ∧
      J1 (Sum.inl i) (Sum.inl j) =
        m.dDifference (Pinocchio.confOf m x_2) (Pinocchio.confOf m x_1) .ARG0 i j := by
  have e0 : J0 = Pinocchio.dStateDeltaArg0 m x_1 x_2 :=
    (Except.ok.inj h0).symm
  have e1 : J1 = Pinocchio.dStateDeltaArg1 m x_1 x_2 :=
    (Except.ok.inj h1).symm
  subst e0 e1
  refine ⟨?_, rfl, rfl, rfl⟩
  by_cases h : i = j <;>
    simp [Pinocchio.dStateDeltaArg0, Pinocchio.dStateDeltaArg1, h]

/-- Witness for C5 on the one-dimensional Euclidean engine instance. -/
theorem pinocchio_dStateDelta_block_structure_witness :
    Pinocchio.dStateDeltaArg1 euclModel x1c x2c (Sum.inr (0 : Fin 1)) (Sum.inr (0 : Fin 1)) =
        -Pinocchio.dStateDeltaArg0 euclModel x1c x2c (Sum.inr (0 : Fin 1)) (Sum.inr (0 : Fin 1)) ∧
      Pinocchio.dStateDeltaArg0 euclModel x1c x2c (Sum.inr (0 : Fin 1)) (Sum.inr (0 : Fin 1)) =
        (if (0 : Fin 1) = (0 : Fin 1) then 1 else 0) ∧
      Pinocchio.dStateDeltaArg0 euclModel x1c x2c (Sum.inl (0 : Fin 1)) (Sum.inl (0 : Fin 1)) =
        euclModel.dDifference (Pinocchio.confOf euclModel x2c)
          (Pinocchio.confOf euclModel x1c) .ARG1 (0 : Fin 1) (0 : Fin 1) ∧
      Pinocchio.dStateDeltaArg1 euclModel x1c x2c (Sum.inl (0 : Fin 1)) (Sum.inl (0 : Fin 1)) =
        euclModel.dDifference (Pinocchio.confOf euclModel x2c)
          (Pinocchio.confOf euclModel x1c) .ARG0 (0 : Fin 1) (0 : Fin 1) :=
  pinocchio_dStateDelta_block_structure euclModel x1c x2c
    (Pinocchio.dStateDeltaArg0 euclModel x1c x2c)
    (Pinocchio.dStateDeltaArg1 euclModel x1c x2c) rfl rfl (0 : Fin 1) (0 : Fin 1)

/-- C1 as stated fails on the code: with the Euclidean one-dimensional
engine instance and `x1 = [0;0]`, `x2 = [1;1]`,
`Integrate(x2, StateDelta(x2, x1), 1)` has velocity entry
`x2_v + (x2_v - x1_v) = 2`, not `x1_v = 0`. -/
theorem roundtrip_as_stated_counterexample :
    Pinocchio.Integrate euclModel x2c (Pinocchio.StateDelta euclModel x2c x1c) 1 ≠ x1c := by
  intro h
  have hv := congrFun h (Sum.inr (0 : Fin 1))
  have : (1 : ℝ) + 1 * (1 - 0) = 0 := hv
  norm_num at this

/-- C1 amended: the round-trip law holds with `StateDelta`'s arguments in
the code's convention (`StateDelta(x_1, x_2) = x_1 - x_2`), i.e.
`Integrate(x_2, StateDelta(x_1, x_2), 1) = x_1`: exactly for the
Euclidean cartpole solver, and for the generic solver whenever the
engine's manifold operators satisfy the round-trip identity
`integrate(q0, difference(q0, q1)) = q1` (for manifold configuration
spaces that identity itself holds modulo the manifold's
periodicity/normalization). -/
theorem roundtrip_amended (m : Pinocchio.Model)
    (hRT : ∀ q0 q1 : Fin m.nq → ℝ, m.integrate q0 (m.difference q0 q1) = q1)
    (x_1 x_2 : Pinocchio.X m) (y_1 y_2 : Fin 4 → ℝ) :
    Pinocchio.Integrate m x_2 (Pinocchio.StateDelta m x_1 x_2) 1 = x_1 ∧
      Cartpole.Integrate y_2 (Cartpole.StateDelta y_1 y_2) 1 = y_1 := by
  constructor
  · funext s
    cases s with
    | inl i =>
      show m.integrate (Pinocchio.confOf m x_2)
        (fun i => 1 * m.difference (Pinocchio.confOf m x_2) (Pinocchio.confOf m x_1) i) i =
          x_1 (Sum.inl i)
      have hone : (fun i => 1 * m.difference (Pinocchio.confOf m x_2)
          (Pinocchio.confOf m x_1) i) =
          m.difference (Pinocchio.confOf m x_2) (Pinocchio.confOf m x_1) := by
        funext i
        rw [one_mul]
      rw [hone, hRT]
      rfl
    | inr i =>
      show x_2 (Sum.inr i) + 1 * (x_1 (Sum.inr i) - x_2 (Sum.inr i)) = x_1 (Sum.inr i)
      ring
  · funext i
    show y_2 i + 1 * (y_1 i - y_2 i) = y_1 i
    ring

/-- Witness for the amended round-trip law on the one-dimensional
Euclidean engine instance. -/
theorem roundtrip_amended_witness :
    Pinocchio.Integrate euclModel x2c (Pinocchio.StateDelta euclModel x1c x2c) 1 = x1c ∧
      Cartpole.Integrate ![1, 1, 1, 1] (Cartpole.StateDelta ![0, 2, 0, 2] ![1, 1, 1, 1]) 1 =
        ![0, 2, 0, 2] :=
  roundtrip_amended euclModel
    (by
      intro q0 q1
      funext i
      show q0 i + (q1 i - q0 i) = q1 i
      ring)
    x1c x2c ![0, 2, 0, 2] ![1, 1, 1, 1]

/-- `checkedCall` fails with a `DimensionError` exactly on a size
mismatch, and returns a result exactly under matching sizes. -/
theorem checkedCall_spec {α : Type} (np nv nc : ℕ) (x u : List ℝ)
    (body : List ℝ → List ℝ → α) :
    (checkedCall np nv nc x u body = .error .DimensionError ↔
        (x.length ≠ np + nv ∨ u.length ≠ nc)) ∧
      ((∃ y, checkedCall np nv nc x u body = .ok y) ↔
        (x.length = np + nv ∧ u.length = nc)) := by
  unfold checkedCall
  split <;> rename_i h
  · constructor
    · exact ⟨fun _ => h, fun _ => rfl⟩
    · constructor
      · rintro ⟨y, hy⟩
        exact Except.noConfusion hy
      · rintro ⟨h1, h2⟩
        rcases h with h | h
        · exact absurd h1 h
        · exact absurd h2 h
  · rw [not_or, not_not, not_not] at h
    constructor
    · constructor
      · intro hy
        exact Except.noConfusion hy
      · intro hc
        rcases hc with hc | hc
        · exact absurd h.1 hc
        · exact absurd h.2 hc
    · exact ⟨fun _ => h, fun _ => ⟨_, rfl⟩⟩

/-- C2: every `f`/`fx`/`fu` call on a bound solver (cartpole and generic
articulated model) fails with a `DimensionError` iff
`x.size() != num_positions + num_velocities` or
`u.size() != num_controls`, and returns a value iff both sizes match. -/
theorem dimension_check_spec (p : Cartpole.Params) (m : Pinocchio.Model)
    (s : Pinocchio.State m) (x u : List ℝ) :
    (cartpoleFChecked p x u = .error .DimensionError ↔
        (x.length ≠ 2 + 2 ∨ u.length ≠ 1)) ∧
      ((∃ y, cartpoleFChecked p x u = .ok y) ↔ (x.length = 2 + 2 ∧ u.length = 1)) ∧
      (cartpoleFxChecked p x u = .error .DimensionError ↔
        (x.length ≠ 2 + 2 ∨ u.length ≠ 1)) ∧
      ((∃ y, cartpoleFxChecked p x u = .ok y) ↔ (x.length = 2 + 2 ∧ u.length = 1)) ∧
      (cartpoleFuChecked p x u = .error .DimensionError ↔
        (x.length ≠ 2 + 2 ∨ u.length ≠ 1)) ∧
      ((∃ y, cartpoleFuChecked p x u = .ok y) ↔ (x.length = 2 + 2 ∧ u.length = 1)) ∧
      (Pinocchio.fChecked m s x u = .error .DimensionError ↔
        (x.length ≠ m.nq + m.nv ∨ u.length ≠ m.nv)) ∧
      ((∃ y, Pinocchio.fChecked m s x u = .ok y) ↔
        (x.length = m.nq + m.nv ∧ u.length = m.nv)) ∧
      (Pinocchio.fxChecked m s x u = .error .DimensionError ↔
        (x.length ≠ m.nq + m.nv ∨ u.length ≠ m.nv)) ∧
      ((∃ y, Pinocchio.fxChecked m s x u = .ok y) ↔
        (x.length = m.nq + m.nv ∧ u.length = m.nv)) ∧
      (Pinocchio.fuChecked m s x u = .error .DimensionError ↔
        (x.length ≠ m.nq + m.nv ∨ u.length ≠ m.nv)) ∧
      ((∃ y, Pinocchio.fuChecked m s x u = .ok y) ↔
        (x.length = m.nq + m.nv ∧ u.length = m.nv)) :=
  ⟨(checkedCall_spec 2 2 1 x u _).1, (checkedCall_spec 2 2 1 x u _).2,
    (checkedCall_spec 2 2 1 x u _).1, (checkedCall_spec 2 2 1 x u _).2,
    (checkedCall_spec 2 2 1 x u _).1, (checkedCall_spec 2 2 1 x u _).2,
    (checkedCall_spec m.nq m.nv m.nv x u _).1, (checkedCall_spec m.nq m.nv m.nv x u _).2,
    (checkedCall_spec m.nq m.nv m.nv x u _).1, (checkedCall_spec m.nq m.nv m.nv x u _).2,
    (checkedCall_spec m.nq m.nv m.nv x u _).1, (checkedCall_spec m.nq m.nv m.nv x u _).2⟩

/-- The shared cartpole denominator `m_c + m_p*sin^2(theta)` is positive
for physical parameters. -/
theorem cartpole_den_pos (p : Cartpole.Params) (hmc : 0 < p.m_c) (hmp : 0 ≤ p.m_p)
    (theta : ℝ) : 0 < p.m_c + p.m_p * Real.sin theta * Real.sin theta := by
  have h : 0 ≤ p.m_p * (Real.sin theta * Real.sin theta) :=
    mul_nonneg hmp (mul_self_nonneg _)
  nlinarith

/-- The length-scaled cartpole denominator `l*(m_c + m_p*sin^2(theta))`
is positive for physical parameters. -/
theorem cartpole_lden_pos (p : Cartpole.Params) (hmc : 0 < p.m_c) (hmp : 0 ≤ p.m_p)
    (hl : 0 < p.l) (theta : ℝ) :
    0 < p.l * p.m_c + p.l * p.m_p * Real.sin theta * Real.sin theta := by
  have h1 : 0 < p.l * p.m_c := mul_pos hl hmc
  have h2 : 0 ≤ p.l * p.m_p * (Real.sin theta * Real.sin theta) :=
    mul_nonneg (mul_nonneg hl.le hmp) (mul_self_nonneg _)
  nlinarith

/-- The partial derivative of the cart acceleration with respect to the
pole angle is entry (2,1) of `CartpoleDynamicsSolver::fx`. -/
theorem hasDerivAt_xddot_theta (p : Cartpole.Params) (theta tdot u0 : ℝ)
    (hD : p.m_c + p.m_p * Real.sin theta * Real.sin theta ≠ 0) :
    HasDerivAt (fun t => Cartpole.xddot p t tdot u0) (Cartpole.fx21 p theta tdot u0) theta := by
  have hsin := Real.hasDerivAt_sin theta
  have hcos := Real.hasDerivAt_cos theta
  have h := (((hsin.const_mul p.m_p).mul
      ((hcos.const_mul p.g).const_add (p.l * (tdot * tdot)))).const_add u0).div
    (((hsin.const_mul p.m_p).mul hsin).const_add p.m_c) hD
  convert h using 1
  simp only [Cartpole.fx21]
  field_simp
  ring

/-- The partial derivative of the cart acceleration with respect to the
pole angular velocity is entry (2,3) of `CartpoleDynamicsSolver::fx`. -/
theorem hasDerivAt_xddot_tdot (p : Cartpole.Params) (theta tdot u0 : ℝ) :
    HasDerivAt (fun s => Cartpole.xddot p theta s u0) (Cartpole.fx23 p theta tdot u0) tdot := by
  have h := (((((hasDerivAt_id tdot).mul (hasDerivAt_id tdot)).const_mul p.l).add_const
      (p.g * Real.cos theta)).const_mul (p.m_p * Real.sin theta)).const_add u0
  have h2 := h.div_const (p.m_c + p.m_p * Real.sin theta * Real.sin theta)
  convert h2 using 1
  simp only [Cartpole.fx23, id_eq]
  ring

/-- The partial derivative of the cart acceleration with respect to the
control is entry 2 of `CartpoleDynamicsSolver::fu`. -/
theorem hasDerivAt_xddot_u (p : Cartpole.Params) (theta tdot u0 : ℝ) :
    HasDerivAt (fun s => Cartpole.xddot p theta tdot s)
      (1 / (p.m_c + p.m_p * Real.sin theta * Real.sin theta)) u0 := by
  have h := ((hasDerivAt_id u0).add_const
      (p.m_p * Real.sin theta * (p.l * (tdot * tdot) + p.g * Real.cos theta))).div_const
    (p.m_c + p.m_p * Real.sin theta * Real.sin theta)
  exact h

/-- The partial derivative of the pole angular acceleration with respect
to the pole angle is entry (3,1) of `CartpoleDynamicsSolver::fx`. -/
theorem hasDerivAt_tddot_theta (p : Cartpole.Params) (theta tdot u0 : ℝ)
    (hE : p.l * p.m_c + p.l * p.m_p * Real.sin theta * Real.sin theta ≠ 0) :
    HasDerivAt (fun t => Cartpole.tddot p t tdot u0) (Cartpole.fx31 p theta tdot u0) theta := by
  have hsin := Real.hasDerivAt_sin theta
  have hcos := Real.hasDerivAt_cos theta
  have h := (((((hcos.const_mul (p.l * p.m_p)).mul hsin).mul_const (tdot * tdot)).add
      (hcos.const_mul u0)).add (hsin.const_mul ((p.m_c + p.m_p) * p.g))).neg.div
    (((hsin.const_mul (p.l * p.m_p)).mul hsin).const_add (p.l * p.m_c)) hE
  convert h using 1
  simp only [Cartpole.fx31]
  field_simp
  ring

/-- The partial derivative of the pole angular acceleration with respect
to the pole angular velocity is entry (3,3) of `CartpoleDynamicsSolver::fx`. -/
theorem hasDerivAt_tddot_tdot (p : Cartpole.Params) (theta tdot u0 : ℝ) :
    HasDerivAt (fun s => Cartpole.tddot p theta s u0) (Cartpole.fx33 p theta tdot u0) tdot := by
  have h := (((((hasDerivAt_id tdot).mul (hasDerivAt_id tdot)).const_mul
      (p.l * p.m_p * Real.cos theta * Real.sin theta)).add_const
      (u0 * Real.cos theta)).add_const
      ((p.m_c + p.m_p) * p.g * Real.sin theta)).neg.div_const
    (p.l * p.m_c + p.l * p.m_p * Real.sin theta * Real.sin theta)
  convert h using 1
  simp only [Cartpole.fx33, id_eq]
  ring

/-- The partial derivative of the pole angular acceleration with respect
to the control is entry 3 of `CartpoleDynamicsSolver::fu`. -/
theorem hasDerivAt_tddot_u (p : Cartpole.Params) (theta tdot u0 : ℝ) :
    HasDerivAt (fun s => Cartpole.tddot p theta tdot s)
      (-Real.cos theta / (p.l * p.m_c + p.l * p.m_p * Real.sin theta * Real.sin theta)) u0 := by
  have h := ((((hasDerivAt_id u0).mul_const (Real.cos theta)).const_add
      (p.l * p.m_p * Real.cos theta * Real.sin theta * (tdot * tdot))).add_const
      ((p.m_c + p.m_p) * p.g * Real.sin theta)).neg.div_const
    (p.l * p.m_c + p.l * p.m_p * Real.sin theta * Real.sin theta)
  convert h using 1
  ring

/-- C3: the cartpole `fx` and `fu` are the exact partial derivatives of
the closed-form expressions of `f`: for physical parameters
(`m_c > 0`, `m_p >= 0`, `l > 0`), every entry `(i, j)` of the 4x4 matrix
`fx` is the derivative of `f_i` along the `j`-th state coordinate, and
every entry `i` of the 4x1 vector `fu` is the derivative of `f_i` along
the control, at every `(x, u)`. -/
theorem cartpole_jacobians_exact (p : Cartpole.Params) (hmc : 0 < p.m_c) (hmp : 0 ≤ p.m_p)
    (hl : 0 < p.l) (x : Fin 4 → ℝ) (u : Fin 1 → ℝ) (i j : Fin 4) (k : Fin 1) :
    HasDerivAt (fun s => Cartpole.f p (Function.update x j s) u i)
        (Cartpole.fx p x u i j) (x j) ∧
      HasDerivAt (fun s => Cartpole.f p x (Function.update u k s) i)
        (Cartpole.fu p x u i) (u k) := by
  have hD := (cartpole_den_pos p hmc hmp (x 1)).ne'
  have hE := (cartpole_lden_pos p hmc hmp hl (x 1)).ne'
  constructor
  · fin_cases i <;> fin_cases j
    · exact hasDerivAt_const (x 0) (x 2)
    · exact hasDerivAt_const (x 1) (x 2)
    · exact hasDerivAt_id (x 2)
    · exact hasDerivAt_const (x 3) (x 2)
    · exact hasDerivAt_const (x 0) (x 3)
    · exact hasDerivAt_const (x 1) (x 3)
    · exact hasDerivAt_const (x 2) (x 3)
    · exact hasDerivAt_id (x 3)
    · exact hasDerivAt_const (x 0) (Cartpole.xddot p (x 1) (x 3) (u 0))
    · exact hasDerivAt_xddot_theta p (x 1) (x 3) (u 0) hD
    · exact hasDerivAt_const (x 2) (Cartpole.xddot p (x 1) (x 3) (u 0))
    · exact hasDerivAt_xddot_tdot p (x 1) (x 3) (u 0)
    · exact hasDerivAt_const (x 0) (Cartpole.tddot p (x 1) (x 3) (u 0))
    · exact hasDerivAt_tddot_theta p (x 1) (x 3) (u 0) hE
    · exact hasDerivAt_const (x 2) (Cartpole.tddot p (x 1) (x 3) (u 0))
    · exact hasDerivAt_tddot_tdot p (x 1) (x 3) (u 0)
  · fin_cases k
    fin_cases i
    · exact hasDerivAt_const (u 0) (x 2)
    · exact hasDerivAt_const (u 0) (x 3)
    · exact hasDerivAt_xddot_u p (x 1) (x 3) (u 0)
    · exact hasDerivAt_tddot_u p (x 1) (x 3) (u 0)

/-- Witness for C3 at `m_c = m_p = l = g = 1`, `x = 0`, `u = 0`,
entry `(2,1)` of `fx` and entry `2` of `fu`. -/
theorem cartpole_jacobians_exact_witness :
    HasDerivAt
        (fun s => Cartpole.f ⟨1, 1, 1, 1⟩
          (Function.update (fun _ => (0 : ℝ)) (1 : Fin 4) s) (fun _ => 0) (2 : Fin 4))
        (Cartpole.fx ⟨1, 1, 1, 1⟩ (fun _ => 0) (fun _ => 0) (2 : Fin 4) (1 : Fin 4))
        ((fun _ : Fin 4 => (0 : ℝ)) (1 : Fin 4)) ∧
      HasDerivAt
        (fun s => Cartpole.f ⟨1, 1, 1, 1⟩ (fun _ => 0)
          (Function.update (fun _ => (0 : ℝ)) (0 : Fin 1) s) (2 : Fin 4))
        (Cartpole.fu ⟨1, 1, 1, 1⟩ (fun _ => 0) (fun _ => 0) (2 : Fin 4))
        ((fun _ : Fin 1 => (0 : ℝ)) (0 : Fin 1)) :=
  cartpole_jacobians_exact ⟨1, 1, 1, 1⟩ (by norm_num) (by norm_num) (by norm_num)
    (fun _ => 0) (fun _ => 0) 2 1 0
